import Mathlib

/-!
Verification of the prompt wrapping and tokenization core of gemma.cpp
(`gemma/tokenizer.cc`): the functions `WrapAndTokenize` and `WrapVLM`,
shallowly embedded over explicit external collaborators (the tokenizer's
`Encode`, and the prompt reformatter `Wrap`).  Fatal assertions
(`HWY_ASSERT` / `HWY_ABORT`) and C++ undefined behaviour (division by
zero) are modelled as `none`.
-/

namespace Gcpp

/-- Modelled from the spec: the wrapping-mode enum (`PromptWrapping` in
`compression/shared.h`, not under `src/`).  The spec names the modes
`{PRETRAINED, INSTRUCTION_TUNED, PALIGEMMA, VISION_LANGUAGE}`; the source
refers to them as `GEMMA_PT`, `GEMMA_IT`, `PALIGEMMA` and `GEMMA_VLM`
(so `GEMMA_VLM` is the vision-language mode). -/
inductive PromptWrapping where
  | GEMMA_IT
  | GEMMA_PT
  | PALIGEMMA
  | GEMMA_VLM
deriving DecidableEq

/-- Modelled from the spec: `ModelInfo` (declared in `gemma/common.h`, not
under `src/`) carries the wrapping mode for a model; read-only configuration. -/
structure ModelInfo where
  wrapping : PromptWrapping

/-- Modelled from the spec: `BOS_ID` is a fixed constant integer identifying
the beginning-of-sequence marker (declared outside `src/`); the Gemma
vocabulary value 2 is used here.  The claims only depend on it being a fixed
nonnegative constant distinct from the placeholder sentinel. -/
def BOS_ID : Int := 2

/-- The reserved sentinel for image placeholder slots; the source inserts the
literal `-2` in `WrapVLM`, which the spec names `IMAGE_PLACEHOLDER_ID`. -/
def IMAGE_PLACEHOLDER_ID : Int := -2

/-- The external tokenizer capability's `Encode(text) -> (ok, ids)`:
`none` models a failed encode (the core asserts success, i.e. aborts). -/
abbrev Encoder := String → Option (List Int)

/-- Modelled from the spec: the external prompt reformatter
`Wrap(info, pos, prompt)` (in `gemma/common.h`, not under `src/`) rewrites the
prompt text in place for the wrapping mode; opaque to the core. -/
abbrev PromptRewrite := ModelInfo → Nat → String → String

/-- `WrapAndTokenize` from `gemma/tokenizer.cc` lines 117-139: reformat the
prompt via `Wrap`, encode it (assert success), prepend `BOS_ID` when
`pos == 0`, and for `PALIGEMMA` encode the newline separator independently
(assert success) and append its tokens. -/
def WrapAndTokenize (wrap : PromptRewrite) (enc : Encoder) (info : ModelInfo)
    (pos : Nat) (prompt : String) : Option (List Int) :=
  match enc (wrap info pos prompt) with
  | none => none
  | some ts =>
    let tokens := if pos = 0 then BOS_ID :: ts else ts
    if info.wrapping = PromptWrapping.PALIGEMMA then
      match enc "\n" with
      | none => none
      | some sep => some (tokens ++ sep)
    else
      some tokens

/-- Modelled from the spec: `hwy::DivCeil(a, b) = (a + b - 1) / b` (from the
highway dependency, not part of this repository).  Division by zero is
undefined behaviour in C++, modelled as `none`. -/
def DivCeil (a b : Nat) : Option Nat :=
  if b = 0 then none else some ((a + b - 1) / b)

/-- `std::vector::insert` of the elements `xs` at index `n` of `ts`. -/
def vecInsert (ts : List Int) (n : Nat) (xs : List Int) : List Int :=
  ts.take n ++ xs ++ ts.drop n

/-- One iteration of the `WrapVLM` loop body (lines 158-165): the three
`insert` calls, in source order: `begin_image_tokens` at the front, then
`image_batch_size` copies of the placeholder at index
`begin_image_tokens.size()`, then `end_image_tokens` at index
`begin_image_tokens.size() + image_batch_size`. -/
def vlmStep (beginTok endTok : List Int) (ibs : Nat) (ts : List Int) :
    List Int :=
  let t1 := vecInsert ts 0 beginTok
  let t2 := vecInsert t1 beginTok.length (List.replicate ibs IMAGE_PLACEHOLDER_ID)
  vecInsert t2 (beginTok.length + ibs) endTok

/-- The `for (size_t i = 0; i < num_images; ++i)` loop of `WrapVLM`: apply
`vlmStep` `num_images` times to the token vector. -/
def vlmLoop (beginTok endTok : List Int) (ibs : Nat) :
    Nat → List Int → List Int
  | 0, ts => ts
  | n + 1, ts => vlmLoop beginTok endTok ibs n (vlmStep beginTok endTok ibs ts)

/-- The literal `begin_image_prompt` string of `WrapVLM`. -/
def begin_image_prompt : String := "\n\n<start_of_image>"

/-- The literal `end_image_prompt` string of `WrapVLM`. -/
def end_image_prompt : String := "<end_of_image>\n\n"

/-- The body of `WrapVLM` after its `HWY_ASSERT` on the wrapping mode
(lines 145-167): compute `num_images`, encode the separator (asserted,
result unused), build `begin_image_tokens` and `end_image_tokens` via
`WrapAndTokenize` at the same `pos`, then run the insertion loop. -/
def WrapVLMBody (wrap : PromptRewrite) (enc : Encoder) (info : ModelInfo)
    (pos : Nat) (tokens : List Int)
    (image_batch_size max_image_batch_size : Nat) : Option (List Int) :=
  match DivCeil image_batch_size max_image_batch_size with
  | none => none
  | some num_images =>
    match enc "\n" with
    | none => none
    | some _sep =>
      match WrapAndTokenize wrap enc info pos begin_image_prompt with
      | none => none
      | some beginTok =>
        match WrapAndTokenize wrap enc info pos end_image_prompt with
        | none => none
        | some endTok =>
          some (vlmLoop beginTok endTok image_batch_size num_images tokens)

/-- `WrapVLM` from `gemma/tokenizer.cc` lines 141-168:
`HWY_ASSERT(info.wrapping == PromptWrapping::GEMMA_VLM)` (abort on failure,
modelled as `none`), then the body. -/
def WrapVLM (wrap : PromptRewrite) (enc : Encoder) (info : ModelInfo)
    (pos : Nat) (tokens : List Int)
    (image_batch_size max_image_batch_size : Nat) : Option (List Int) :=
  if info.wrapping = PromptWrapping.GEMMA_VLM then
    WrapVLMBody wrap enc info pos tokens image_batch_size max_image_batch_size
  else none

/-- `num_images` repetitions of a block, concatenated; used to state the
shape of the `WrapVLM` output. -/
def repBlocks (blk : List Int) : Nat → List Int
  | 0 => []
  | n + 1 => blk ++ repBlocks blk n

/-- An identity prompt reformatter, a concrete instance of the opaque
external `Wrap` collaborator, used for concrete evaluations. -/
def wrapId : PromptRewrite := fun _ _ s => s

/-- A concrete tokenizer that encodes every string to the single vocabulary
id 100; used for concrete evaluations. -/
def encK : Encoder := fun _ => some [100]

/-- A concrete tokenizer that encodes every string to the single vocabulary
id 5; used for concrete evaluations. -/
def encFive : Encoder := fun _ => some [5]

example : WrapAndTokenize wrapId encK ⟨PromptWrapping.GEMMA_PT⟩ 0 "Describe" =
    some [BOS_ID, 100] := by decide

example : WrapAndTokenize wrapId encK ⟨PromptWrapping.PALIGEMMA⟩ 0 "x" =
    some [2, 100, 100] := by decide

example : WrapVLM wrapId encK ⟨PromptWrapping.GEMMA_VLM⟩ 0 [2, 100] 1 1 =
    some [2, 100, -2, 2, 100, 2, 100] := by decide

example : WrapVLM wrapId encFive ⟨PromptWrapping.GEMMA_VLM⟩ 1 [7] 0 4 =
    some [7] := by decide

example : WrapVLM wrapId encK ⟨PromptWrapping.GEMMA_VLM⟩ 1 [7] 2 2 =
    some [100, -2, -2, 100, 7] := by decide

example : WrapVLM wrapId encK ⟨PromptWrapping.PALIGEMMA⟩ 1 [7] 2 2 = none := by
  decide

theorem vecInsert_zero (ts xs : List Int) : vecInsert ts 0 xs = xs ++ ts := by
  simp [vecInsert]

theorem vecInsert_mid (pre post xs : List Int) :
    vecInsert (pre ++ post) pre.length xs = pre ++ xs ++ post := by
  simp [vecInsert, List.take_left, List.drop_left]

theorem vlmStep_eq (b e : List Int) (ibs : Nat) (ts : List Int) :
    vlmStep b e ibs ts =
      b ++ List.replicate ibs IMAGE_PLACEHOLDER_ID ++ e ++ ts := by
  simp only [vlmStep, vecInsert_zero]
  have hlen : b.length + ibs =
      (b ++ List.replicate ibs IMAGE_PLACEHOLDER_ID).length := by
    simp
  rw [vecInsert_mid, hlen, vecInsert_mid]

theorem repBlocks_comm (blk : List Int) (n : Nat) :
    repBlocks blk n ++ blk = blk ++ repBlocks blk n := by
  induction n with
  | zero => simp [repBlocks]
  | succ n ih => simp only [repBlocks, List.append_assoc, ih]

theorem vlmLoop_eq (b e : List Int) (ibs n : Nat) (ts : List Int) :
    vlmLoop b e ibs n ts =
      repBlocks (b ++ List.replicate ibs IMAGE_PLACEHOLDER_ID ++ e) n ++ ts := by
  induction n generalizing ts with
  | zero => simp [vlmLoop, repBlocks]
  | succ n ih =>
    rw [vlmLoop, ih, vlmStep_eq]
    rw [show b ++ List.replicate ibs IMAGE_PLACEHOLDER_ID ++ e ++ ts =
          (b ++ List.replicate ibs IMAGE_PLACEHOLDER_ID ++ e) ++ ts from by
        simp [List.append_assoc]]
    rw [← List.append_assoc, repBlocks_comm]
    simp [repBlocks, List.append_assoc]

theorem mem_repBlocks (blk : List Int) (n : Nat) (a : Int)
    (h : a ∈ repBlocks blk n) : a ∈ blk := by
  induction n with
  | zero => simp [repBlocks] at h
  | succ n ih =>
    rw [repBlocks, List.mem_append] at h
    rcases h with h | h
    · exact h
    · exact ih h

theorem count_repBlocks (blk : List Int) (n : Nat) (a : Int) :
    (repBlocks blk n).count a = n * blk.count a := by
  induction n with
  | zero => simp [repBlocks]
  | succ n ih => simp [repBlocks, List.count_append, ih, Nat.succ_mul,
      Nat.add_comm]

theorem wrapAndTokenize_not_pali (wrap : PromptRewrite) (enc : Encoder)
    (info : ModelInfo) (pos : Nat) (prompt : String) (ts : List Int)
    (hw : info.wrapping ≠ PromptWrapping.PALIGEMMA)
    (henc : enc (wrap info pos prompt) = some ts) :
    WrapAndTokenize wrap enc info pos prompt =
      some (if pos = 0 then BOS_ID :: ts else ts) := by
  unfold WrapAndTokenize
  rw [henc]
  simp [hw]

theorem wrapAndTokenize_pali (wrap : PromptRewrite) (enc : Encoder)
    (info : ModelInfo) (pos : Nat) (prompt : String) (ts sep : List Int)
    (hw : info.wrapping = PromptWrapping.PALIGEMMA)
    (henc : enc (wrap info pos prompt) = some ts)
    (hsep : enc "\n" = some sep) :
    WrapAndTokenize wrap enc info pos prompt =
      some ((if pos = 0 then BOS_ID :: ts else ts) ++ sep) := by
  unfold WrapAndTokenize
  rw [henc]
  simp [hw, hsep]

theorem wrapAndTokenize_eq_some (wrap : PromptRewrite) (enc : Encoder)
    (info : ModelInfo) (pos : Nat) (prompt : String) (out : List Int)
    (h : WrapAndTokenize wrap enc info pos prompt = some out) :
    ∃ ts, enc (wrap info pos prompt) = some ts ∧
      ((info.wrapping ≠ PromptWrapping.PALIGEMMA ∧
          out = if pos = 0 then BOS_ID :: ts else ts) ∨
       (info.wrapping = PromptWrapping.PALIGEMMA ∧
          ∃ sep, enc "\n" = some sep ∧
            out = (if pos = 0 then BOS_ID :: ts else ts) ++ sep)) := by
  unfold WrapAndTokenize at h
  cases henc : enc (wrap info pos prompt) with
  | none => rw [henc] at h; cases h
  | some ts =>
    rw [henc] at h
    refine ⟨ts, rfl, ?_⟩
    by_cases hw : info.wrapping = PromptWrapping.PALIGEMMA
    · simp only [hw, if_pos rfl] at h
      cases hsep : enc "\n" with
      | none => rw [hsep] at h; cases h
      | some sep =>
        rw [hsep] at h
        right
        exact ⟨hw, sep, rfl, (Option.some.inj h).symm⟩
    · simp only [if_neg hw] at h
      left
      exact ⟨hw, (Option.some.inj h).symm⟩

theorem wrapVLMBody_eq_some (wrap : PromptRewrite) (enc : Encoder)
    (info : ModelInfo) (pos : Nat) (tokens : List Int) (ibs mibs : Nat)
    (out : List Int)
    (h : WrapVLMBody wrap enc info pos tokens ibs mibs = some out) :
    ∃ num sep beginTok endTok,
      DivCeil ibs mibs = some num ∧ enc "\n" = some sep ∧
      WrapAndTokenize wrap enc info pos begin_image_prompt = some beginTok ∧
      WrapAndTokenize wrap enc info pos end_image_prompt = some endTok ∧
      out = vlmLoop beginTok endTok ibs num tokens := by
  unfold WrapVLMBody at h
  cases hd : DivCeil ibs mibs with
  | none => rw [hd] at h; cases h
  | some num =>
    rw [hd] at h
    cases hs : enc "\n" with
    | none => rw [hs] at h; cases h
    | some sep =>
      rw [hs] at h
      cases hb : WrapAndTokenize wrap enc info pos begin_image_prompt with
      | none => rw [hb] at h; cases h
      | some beginTok =>
        rw [hb] at h
        cases he : WrapAndTokenize wrap enc info pos end_image_prompt with
        | none => rw [he] at h; cases h
        | some endTok =>
          rw [he] at h
          exact ⟨num, sep, beginTok, endTok, rfl, rfl, rfl, rfl,
            (Option.some.inj h).symm⟩

theorem wrapVLMBody_eq (wrap : PromptRewrite) (enc : Encoder)
    (info : ModelInfo) (pos : Nat) (tokens : List Int) (ibs mibs num : Nat)
    (sep beginTok endTok : List Int)
    (hd : DivCeil ibs mibs = some num)
    (hs : enc "\n" = some sep)
    (hb : WrapAndTokenize wrap enc info pos begin_image_prompt = some beginTok)
    (he : WrapAndTokenize wrap enc info pos end_image_prompt = some endTok) :
    WrapVLMBody wrap enc info pos tokens ibs mibs =
      some (vlmLoop beginTok endTok ibs num tokens) := by
  unfold WrapVLMBody
  rw [hd, hs, hb, he]

theorem wrapAndTokenize_no_bos_of_pos (wrap : PromptRewrite) (enc : Encoder)
    (info : ModelInfo) (pos : Nat) (prompt : String) (out : List Int)
    (hbos : ∀ s ts, enc s = some ts → BOS_ID ∉ ts)
    (hpos : 0 < pos)
    (h : WrapAndTokenize wrap enc info pos prompt = some out) :
    BOS_ID ∉ out := by
  obtain ⟨ts, henc, hc⟩ := wrapAndTokenize_eq_some wrap enc info pos prompt out h
  have hp : pos ≠ 0 := Nat.pos_iff_ne_zero.mp hpos
  rcases hc with ⟨_, rfl⟩ | ⟨_, sep, hsep, rfl⟩
  · rw [if_neg hp]
    exact hbos _ _ henc
  · rw [if_neg hp]
    intro hmem
    rcases List.mem_append.mp hmem with h1 | h1
    · exact hbos _ _ henc h1
    · exact hbos _ _ hsep h1

theorem encK_no_bos : ∀ s ts, encK s = some ts → BOS_ID ∉ ts := by
  intro s ts h
  simp only [encK, Option.some.injEq] at h
  subst h
  decide

theorem encK_nonneg : ∀ s ts, encK s = some ts → ∀ t ∈ ts, 0 ≤ t := by
  intro s ts h
  simp only [encK, Option.some.injEq] at h
  subst h
  decide

/-- Claim C1: with `num_images = ceil(image_batch_size / max_image_batch_size)`
(computed as `(ibs + mibs - 1) / mibs`), `WrapVLM` returns exactly
`num_images` concatenated blocks, each `begin_image_tokens` followed by
`image_batch_size` placeholders followed by `end_image_tokens`, with the
original tokens unchanged at the tail; the number of placeholder tokens
inserted is exactly `image_batch_size * num_images`. -/
theorem wrapVLM_image_blocks (wrap : PromptRewrite) (enc : Encoder)
    (info : ModelInfo) (pos : Nat) (tokens beginTok endTok sep : List Int)
    (ibs mibs : Nat)
    (hw : info.wrapping = PromptWrapping.GEMMA_VLM)
    (hm : 0 < mibs)
    (hsep : enc "\n" = some sep)
    (hb : WrapAndTokenize wrap enc info pos begin_image_prompt = some beginTok)
    (he : WrapAndTokenize wrap enc info pos end_image_prompt = some endTok)
    (hnb : IMAGE_PLACEHOLDER_ID ∉ beginTok)
    (hne : IMAGE_PLACEHOLDER_ID ∉ endTok) :
    WrapVLM wrap enc info pos tokens ibs mibs =
      some (repBlocks
        (beginTok ++ List.replicate ibs IMAGE_PLACEHOLDER_ID ++ endTok)
        ((ibs + mibs - 1) / mibs) ++ tokens) ∧
    (repBlocks (beginTok ++ List.replicate ibs IMAGE_PLACEHOLDER_ID ++ endTok)
        ((ibs + mibs - 1) / mibs) ++ tokens).count IMAGE_PLACEHOLDER_ID
      = ibs * ((ibs + mibs - 1) / mibs) + tokens.count IMAGE_PLACEHOLDER_ID := by
  have hd : DivCeil ibs mibs = some ((ibs + mibs - 1) / mibs) := by
    unfold DivCeil
    rw [if_neg (Nat.pos_iff_ne_zero.mp hm)]
  constructor
  · unfold WrapVLM
    rw [if_pos hw, wrapVLMBody_eq wrap enc info pos tokens ibs mibs
      ((ibs + mibs - 1) / mibs) sep beginTok endTok hd hsep hb he, vlmLoop_eq]
  · rw [List.count_append, count_repBlocks, List.count_append,
      List.count_append, List.count_replicate_self,
      List.count_eq_zero_of_not_mem hnb, List.count_eq_zero_of_not_mem hne]
    simp [Nat.mul_comm]

/-- Claim C1 witness: concrete run with `pos = 1`, base tokens `[7]`,
`image_batch_size = 2`, `max_image_batch_size = 2`. -/
theorem wrapVLM_image_blocks_witness :
    WrapVLM wrapId encK ⟨PromptWrapping.GEMMA_VLM⟩ 1 [7] 2 2 =
      some (repBlocks ([100] ++ List.replicate 2 IMAGE_PLACEHOLDER_ID ++ [100])
        ((2 + 2 - 1) / 2) ++ [7]) ∧
    (repBlocks ([100] ++ List.replicate 2 IMAGE_PLACEHOLDER_ID ++ [100])
        ((2 + 2 - 1) / 2) ++ [7]).count IMAGE_PLACEHOLDER_ID
      = 2 * ((2 + 2 - 1) / 2) + ([7] : List Int).count IMAGE_PLACEHOLDER_ID :=
  wrapVLM_image_blocks wrapId encK ⟨PromptWrapping.GEMMA_VLM⟩ 1 [7] [100] [100]
    [100] 2 2 rfl (by decide) rfl rfl rfl (by decide) (by decide)

/-- Claim C2 counterexample: at `pos = 0` in vision-language mode, `WrapVLM`
builds its begin/end marker groups by `WrapAndTokenize` at the same `pos`, so
`BOS_ID` (= 2) also appears at positions other than the first in the final
sequence, refuting the claim that it appears only as the first element. -/
theorem bos_repeated_in_wrapVLM_cex :
    WrapAndTokenize wrapId encK ⟨PromptWrapping.GEMMA_VLM⟩ 0 "hi" =
      some [2, 100] ∧
    WrapVLM wrapId encK ⟨PromptWrapping.GEMMA_VLM⟩ 0 [2, 100] 1 1 =
      some [2, 100, -2, 2, 100, 2, 100] ∧
    BOS_ID ∈ List.drop 1 ([2, 100, -2, 2, 100, 2, 100] : List Int) :=
  ⟨by decide, by decide, by decide⟩

/-- Claim C2 (amended): provided the external tokenizer's encode never emits
`BOS_ID` itself, `WrapAndTokenize` places `BOS_ID` first and nowhere else at
`pos = 0` and never at `pos > 0`; and `WrapVLM` preserves BOS-freeness at
`pos > 0`.  At `pos = 0`, `WrapVLM` additionally embeds `BOS_ID` at the head
of every begin/end image marker group (see the counterexample), so the
original claim holds only away from that case. -/
theorem bos_placement_amended (wrap : PromptRewrite) (enc : Encoder)
    (hbos : ∀ s ts, enc s = some ts → BOS_ID ∉ ts) :
    (∀ info prompt out,
        WrapAndTokenize wrap enc info 0 prompt = some out →
        out.head? = some BOS_ID ∧ BOS_ID ∉ out.tail) ∧
    (∀ info pos prompt out, 0 < pos →
        WrapAndTokenize wrap enc info pos prompt = some out →
        BOS_ID ∉ out) ∧
    (∀ info pos tokens ibs mibs out, 0 < pos → BOS_ID ∉ tokens →
        WrapVLM wrap enc info pos tokens ibs mibs = some out →
        BOS_ID ∉ out) := by
  refine ⟨?_, ?_, ?_⟩
  · intro info prompt out h
    obtain ⟨ts, henc, hc⟩ := wrapAndTokenize_eq_some wrap enc info 0 prompt out h
    have hout : (if (0 : Nat) = 0 then BOS_ID :: ts else ts) = BOS_ID :: ts :=
      if_pos rfl
    rcases hc with ⟨_, rfl⟩ | ⟨_, sep, hsep, rfl⟩
    · rw [hout]
      exact ⟨rfl, hbos _ _ henc⟩
    · rw [hout, List.cons_append]
      refine ⟨rfl, ?_⟩
      intro hmem
      rcases List.mem_append.mp hmem with h1 | h1
      · exact hbos _ _ henc h1
      · exact hbos _ _ hsep h1
  · intro info pos prompt out hpos h
    exact wrapAndTokenize_no_bos_of_pos wrap enc info pos prompt out hbos hpos h
  · intro info pos tokens ibs mibs out hpos htok h
    unfold WrapVLM at h
    by_cases hw : info.wrapping = PromptWrapping.GEMMA_VLM
    · rw [if_pos hw] at h
      obtain ⟨num, sep, beginTok, endTok, hd, hs, hb, he, rfl⟩ :=
        wrapVLMBody_eq_some wrap enc info pos tokens ibs mibs _ h
      have hbF : BOS_ID ∉ beginTok :=
        wrapAndTokenize_no_bos_of_pos wrap enc info pos begin_image_prompt
          beginTok hbos hpos hb
      have heF : BOS_ID ∉ endTok :=
        wrapAndTokenize_no_bos_of_pos wrap enc info pos end_image_prompt
          endTok hbos hpos he
      rw [vlmLoop_eq]
      intro hmem
      rcases List.mem_append.mp hmem with h1 | h1
      · have h2 := mem_repBlocks _ _ _ h1
        rcases List.mem_append.mp h2 with h3 | h3
        · rcases List.mem_append.mp h3 with h4 | h4
          · exact hbF h4
          · exact absurd (List.eq_of_mem_replicate h4) (by decide)
        · exact heF h3
      · exact htok h1
    · rw [if_neg hw] at h
      cases h

/-- Claim C2 (amended) witness: concrete instances of all three parts, with
the tokenizer `encK` (which never emits `BOS_ID`). -/
theorem bos_placement_amended_witness :
    (([BOS_ID, 100] : List Int).head? = some BOS_ID ∧
      BOS_ID ∉ ([BOS_ID, 100] : List Int).tail) ∧
    BOS_ID ∉ ([100] : List Int) ∧
    BOS_ID ∉ ([100, -2, 100, 7] : List Int) := by
  have h := bos_placement_amended wrapId encK encK_no_bos
  exact ⟨h.1 ⟨PromptWrapping.GEMMA_PT⟩ "x" [BOS_ID, 100] (by decide),
    h.2.1 ⟨PromptWrapping.GEMMA_PT⟩ 3 "x" [100] (by decide) (by decide),
    h.2.2 ⟨PromptWrapping.GEMMA_VLM⟩ 3 [7] 1 1 [100, -2, 100, 7] (by decide)
      (by decide) (by decide)⟩

/-- Claim C3: in `PALIGEMMA` mode with `pos = 0`, the result is exactly
`[BOS_ID] ++ encode(wrapped prompt) ++ encode newline`, the separator encoded
by its own independent encode call and appended strictly after the prompt
tokens. -/
theorem paligemma_pos0_layout (wrap : PromptRewrite) (enc : Encoder)
    (info : ModelInfo) (prompt : String) (pts sep : List Int)
    (hw : info.wrapping = PromptWrapping.PALIGEMMA)
    (hp : enc (wrap info 0 prompt) = some pts)
    (hs : enc "\n" = some sep) :
    WrapAndTokenize wrap enc info 0 prompt =
      some (BOS_ID :: (pts ++ sep)) := by
  rw [wrapAndTokenize_pali wrap enc info 0 prompt pts sep hw hp hs]
  simp

/-- Claim C3 witness: concrete PaliGemma run at `pos = 0`. -/
theorem paligemma_pos0_layout_witness :
    WrapAndTokenize wrapId encK ⟨PromptWrapping.PALIGEMMA⟩ 0 "Describe" =
      some (BOS_ID :: ([100] ++ [100])) :=
  paligemma_pos0_layout wrapId encK ⟨PromptWrapping.PALIGEMMA⟩ "Describe"
    [100] [100] rfl rfl rfl

/-- Claim C4: for every prompt and every wrapping mode, whenever
`WrapAndTokenize` at `pos = 0` returns a sequence, it is non-empty and its
first element is `BOS_ID`. -/
theorem pos0_starts_with_bos (wrap : PromptRewrite) (enc : Encoder)
    (info : ModelInfo) (prompt : String) (out : List Int)
    (h : WrapAndTokenize wrap enc info 0 prompt = some out) :
    out ≠ [] ∧ out.head? = some BOS_ID := by
  obtain ⟨ts, henc, hc⟩ := wrapAndTokenize_eq_some wrap enc info 0 prompt out h
  have hout : (if (0 : Nat) = 0 then BOS_ID :: ts else ts) = BOS_ID :: ts :=
    if_pos rfl
  rcases hc with ⟨_, rfl⟩ | ⟨_, sep, hsep, rfl⟩
  · rw [hout]
    exact ⟨by simp, rfl⟩
  · rw [hout, List.cons_append]
    exact ⟨by simp, rfl⟩

/-- Claim C4 witness: concrete pre-trained-mode run at `pos = 0`. -/
theorem pos0_starts_with_bos_witness :
    ([BOS_ID, 100] : List Int) ≠ [] ∧
    ([BOS_ID, 100] : List Int).head? = some BOS_ID :=
  pos0_starts_with_bos wrapId encK ⟨PromptWrapping.GEMMA_PT⟩ "Describe"
    [BOS_ID, 100] (by decide)

/-- Claim C5 counterexample: with `image_batch_size = 0` the code computes
`num_images = DivCeil(0, 4) = 0`, so the insertion loop runs zero times and
the output is the base sequence unchanged, not an image block flanked by the
begin/end markers (here both markers encode to `[5]`, so the claimed output
would be `[5, 5, 7]`). -/
theorem image_batch_zero_cex :
    WrapAndTokenize wrapId encFive ⟨PromptWrapping.GEMMA_VLM⟩ 1
        begin_image_prompt = some [5] ∧
    WrapAndTokenize wrapId encFive ⟨PromptWrapping.GEMMA_VLM⟩ 1
        end_image_prompt = some [5] ∧
    WrapVLM wrapId encFive ⟨PromptWrapping.GEMMA_VLM⟩ 1 [7] 0 4 = some [7] ∧
    WrapVLM wrapId encFive ⟨PromptWrapping.GEMMA_VLM⟩ 1 [7] 0 4 ≠
      some ([5] ++ List.replicate 0 IMAGE_PLACEHOLDER_ID ++ [5] ++ [7]) :=
  ⟨by decide, by decide, by decide, by decide⟩

/-- Claim C5 (amended): for `image_batch_size = 0` and any
`max_image_batch_size > 0`, `WrapVLM` does not abort and returns the base
token sequence unchanged: `num_images = 0`, so zero image blocks (hence no
begin/end markers and no placeholder tokens) are inserted. -/
theorem image_batch_zero_amended (wrap : PromptRewrite) (enc : Encoder)
    (info : ModelInfo) (pos : Nat) (tokens : List Int) (mibs : Nat)
    (sep beginTok endTok : List Int)
    (hw : info.wrapping = PromptWrapping.GEMMA_VLM)
    (hm : 0 < mibs)
    (hsep : enc "\n" = some sep)
    (hb : WrapAndTokenize wrap enc info pos begin_image_prompt = some beginTok)
    (he : WrapAndTokenize wrap enc info pos end_image_prompt = some endTok) :
    WrapVLM wrap enc info pos tokens 0 mibs = some tokens := by
  have hd : DivCeil 0 mibs = some 0 := by
    unfold DivCeil
    rw [if_neg (Nat.pos_iff_ne_zero.mp hm)]
    simp [Nat.div_eq_of_lt (Nat.sub_lt hm Nat.one_pos)]
  unfold WrapVLM
  rw [if_pos hw, wrapVLMBody_eq wrap enc info pos tokens 0 mibs 0 sep
    beginTok endTok hd hsep hb he]
  rfl

/-- Claim C5 (amended) witness: concrete run with `image_batch_size = 0`. -/
theorem image_batch_zero_amended_witness :
    WrapVLM wrapId encK ⟨PromptWrapping.GEMMA_VLM⟩ 1 [7] 0 4 = some [7] :=
  image_batch_zero_amended wrapId encK ⟨PromptWrapping.GEMMA_VLM⟩ 1 [7] 4
    [100] [100] [100] rfl (by decide) rfl rfl rfl

/-- Claim C6: for every prompt, wrapping mode and `pos > 0`, the sequence
returned by `WrapAndTokenize` never contains `BOS_ID` (given that the
external tokenizer's encode never emits `BOS_ID` itself). -/
theorem posPos_no_bos (wrap : PromptRewrite) (enc : Encoder)
    (info : ModelInfo) (pos : Nat) (prompt : String) (out : List Int)
    (hbos : ∀ s ts, enc s = some ts → BOS_ID ∉ ts)
    (hpos : 0 < pos)
    (h : WrapAndTokenize wrap enc info pos prompt = some out) :
    BOS_ID ∉ out :=
  wrapAndTokenize_no_bos_of_pos wrap enc info pos prompt out hbos hpos h

/-- Claim C6 witness: concrete instruction-tuned run at `pos = 5`. -/
theorem posPos_no_bos_witness : BOS_ID ∉ ([100] : List Int) :=
  posPos_no_bos wrapId encK ⟨PromptWrapping.GEMMA_IT⟩ 5 "x" [100] encK_no_bos
    (by decide) (by decide)

/-- Claim C7: for every wrapping mode other than `PALIGEMMA` (including
`GEMMA_VLM`), `WrapAndTokenize` appends no separator tokens: the output is
exactly the encoding of the wrapped prompt, with `BOS_ID` prepended when
`pos = 0` and nothing appended after the prompt tokens. -/
theorem non_paligemma_no_separator (wrap : PromptRewrite) (enc : Encoder)
    (info : ModelInfo) (pos : Nat) (prompt : String) (ts : List Int)
    (hw : info.wrapping ≠ PromptWrapping.PALIGEMMA)
    (henc : enc (wrap info pos prompt) = some ts) :
    WrapAndTokenize wrap enc info pos prompt =
      some (if pos = 0 then BOS_ID :: ts else ts) :=
  wrapAndTokenize_not_pali wrap enc info pos prompt ts hw henc

/-- Claim C7 witness: concrete vision-language-mode run at `pos = 0`. -/
theorem non_paligemma_no_separator_witness :
    WrapAndTokenize wrapId encK ⟨PromptWrapping.GEMMA_VLM⟩ 0 "hi" =
      some (if (0 : Nat) = 0 then BOS_ID :: [100] else [100]) :=
  non_paligemma_no_separator wrapId encK ⟨PromptWrapping.GEMMA_VLM⟩ 0 "hi"
    [100] (by decide) rfl

/-- Claim C8: `WrapVLM` asserts `info.wrapping == GEMMA_VLM` before touching
the token sequence: for any other mode it aborts (modelled as `none`) without
producing output, and under the precondition the assertion branch is
unreachable and `WrapVLM` is exactly its post-assert body. -/
theorem wrapVLM_assert_wrapping (wrap : PromptRewrite) (enc : Encoder)
    (info : ModelInfo) (pos : Nat) (tokens : List Int) (ibs mibs : Nat) :
    (info.wrapping ≠ PromptWrapping.GEMMA_VLM →
      WrapVLM wrap enc info pos tokens ibs mibs = none) ∧
    (info.wrapping = PromptWrapping.GEMMA_VLM →
      WrapVLM wrap enc info pos tokens ibs mibs =
        WrapVLMBody wrap enc info pos tokens ibs mibs) := by
  constructor
  · intro hw
    unfold WrapVLM
    rw [if_neg hw]
  · intro hw
    unfold WrapVLM
    rw [if_pos hw]

/-- Claim C8 witness: `WrapVLM` aborts on a PaliGemma model and reduces to
its body on a vision-language model. -/
theorem wrapVLM_assert_wrapping_witness :
    WrapVLM wrapId encK ⟨PromptWrapping.PALIGEMMA⟩ 0 [] 1 1 = none ∧
    WrapVLM wrapId encK ⟨PromptWrapping.GEMMA_VLM⟩ 0 [] 1 1 =
      WrapVLMBody wrapId encK ⟨PromptWrapping.GEMMA_VLM⟩ 0 [] 1 1 :=
  ⟨(wrapVLM_assert_wrapping wrapId encK ⟨PromptWrapping.PALIGEMMA⟩
      0 [] 1 1).1 (by decide),
   (wrapVLM_assert_wrapping wrapId encK ⟨PromptWrapping.GEMMA_VLM⟩
      0 [] 1 1).2 rfl⟩

/-- Claim C9: in every wrapping mode other than vision-language, the sequence
returned by `WrapAndTokenize` never contains `IMAGE_PLACEHOLDER_ID` (-2),
assuming the external tokenizer's encode returns only normal vocabulary ids
(nonnegative). -/
theorem non_vlm_no_placeholder (wrap : PromptRewrite) (enc : Encoder)
    (info : ModelInfo) (pos : Nat) (prompt : String) (out : List Int)
    (_hw : info.wrapping ≠ PromptWrapping.GEMMA_VLM)
    (hnn : ∀ s ts, enc s = some ts → ∀ t ∈ ts, 0 ≤ t)
    (h : WrapAndTokenize wrap enc info pos prompt = some out) :
    IMAGE_PLACEHOLDER_ID ∉ out := by
  obtain ⟨ts, henc, hc⟩ := wrapAndTokenize_eq_some wrap enc info pos prompt out h
  have hts : IMAGE_PLACEHOLDER_ID ∉ ts := by
    intro hmem
    have h0 := hnn _ _ henc _ hmem
    simp [IMAGE_PLACEHOLDER_ID] at h0
  have hif : IMAGE_PLACEHOLDER_ID ∉ (if pos = 0 then BOS_ID :: ts else ts) := by
    by_cases hp : pos = 0
    · rw [if_pos hp]
      intro hmem
      rcases List.mem_cons.mp hmem with h1 | h1
      · exact absurd h1 (by decide)
      · exact hts h1
    · rw [if_neg hp]
      exact hts
  rcases hc with ⟨_, rfl⟩ | ⟨_, sep, hsep, rfl⟩
  · exact hif
  · intro hmem
    rcases List.mem_append.mp hmem with h1 | h1
    · exact hif h1
    · have h0 := hnn _ _ hsep _ h1
      simp [IMAGE_PLACEHOLDER_ID] at h0

/-- Claim C9 witness: concrete instruction-tuned run at `pos = 0` with a
tokenizer emitting only nonnegative ids. -/
theorem non_vlm_no_placeholder_witness :
    IMAGE_PLACEHOLDER_ID ∉ ([BOS_ID, 100] : List Int) :=
  non_vlm_no_placeholder wrapId encK ⟨PromptWrapping.GEMMA_IT⟩ 0 "x"
    [BOS_ID, 100] (by decide) encK_nonneg (by decide)

/-- Claim C10: `WrapVLM` computes `num_images` by an unguarded ceiling
division, so `max_image_batch_size > 0` is required for it to be defined
(`max_image_batch_size = 0` is division by zero, modelled as `none`); under
that precondition, vision-language mode and a total encode, `WrapVLM` always
returns a sequence. -/
theorem wrapVLM_needs_positive_batch (wrap : PromptRewrite) (enc : Encoder)
    (info : ModelInfo) (pos : Nat) (tokens : List Int) (ibs : Nat) :
    WrapVLM wrap enc info pos tokens ibs 0 = none ∧
    (∀ mibs, 0 < mibs → info.wrapping = PromptWrapping.GEMMA_VLM →
      (∀ s, (enc s).isSome) →
      (WrapVLM wrap enc info pos tokens ibs mibs).isSome) := by
  constructor
  · unfold WrapVLM
    by_cases hw : info.wrapping = PromptWrapping.GEMMA_VLM
    · rw [if_pos hw]
      have hd : DivCeil ibs 0 = none := by
        unfold DivCeil
        simp
      unfold WrapVLMBody
      rw [hd]
    · rw [if_neg hw]
  · intro mibs hm hw henc
    obtain ⟨sep, hsep⟩ := Option.isSome_iff_exists.mp (henc "\n")
    obtain ⟨b0, hb0⟩ := Option.isSome_iff_exists.mp
      (henc (wrap info pos begin_image_prompt))
    obtain ⟨e0, he0⟩ := Option.isSome_iff_exists.mp
      (henc (wrap info pos end_image_prompt))
    have hw2 : info.wrapping ≠ PromptWrapping.PALIGEMMA := by
      rw [hw]
      decide
    have hb := wrapAndTokenize_not_pali wrap enc info pos begin_image_prompt
      b0 hw2 hb0
    have he := wrapAndTokenize_not_pali wrap enc info pos end_image_prompt
      e0 hw2 he0
    have hd : DivCeil ibs mibs = some ((ibs + mibs - 1) / mibs) := by
      unfold DivCeil
      rw [if_neg (Nat.pos_iff_ne_zero.mp hm)]
    unfold WrapVLM
    rw [if_pos hw, wrapVLMBody_eq wrap enc info pos tokens ibs mibs
      ((ibs + mibs - 1) / mibs) sep _ _ hd hsep hb he]
    rfl

/-- Claim C10 witness: `WrapVLM` aborts at `max_image_batch_size = 0` and
succeeds at `max_image_batch_size = 2`. -/
theorem wrapVLM_needs_positive_batch_witness :
    WrapVLM wrapId encK ⟨PromptWrapping.GEMMA_VLM⟩ 0 [] 3 0 = none ∧
    (WrapVLM wrapId encK ⟨PromptWrapping.GEMMA_VLM⟩ 0 [] 3 2).isSome := by
  have h := wrapVLM_needs_positive_batch wrapId encK
    ⟨PromptWrapping.GEMMA_VLM⟩ 0 [] 3
  exact ⟨h.1, h.2 2 (by decide) rfl (fun _ => rfl)⟩

end Gcpp
